import Mathlib

/-!
Shallow embedding of the Segment lifecycle engine of this repository:
the schema inferencer (detectColumns), the Segment store model functions
(api/models/Segment.js) and the Express route handlers
(api/server/routes/segments.js).

Modelling conventions:
* JavaScript values occurring in result rows are modelled by JsValue;
  JS numbers are modelled as integers (all sample data is integral, and
  the number branch of detectColumns only inspects typeof).
* Dates and timestamps are modelled as Nat ticks; the date string
  computed by new Date toISOString is passed in as an explicit
  currentDate argument (an ambient clock read made explicit).
* The Mongo document store is modelled as a list of SegmentRecord in
  insertion order; findOne is first match, findOneAndUpdate updates the
  first match, create appends.  The record fields follow the ISegment
  document type (packages/data-schemas/src/types/segment.ts); the
  storage bookkeeping field updatedAt is not modelled.  isDeleted is an
  Option Bool so that the Mongo filter on isDeleted false-or-absent is
  represented faithfully.
* External engine calls (axios requests to the CRM backend) are inputs
  of type Except String; each route also returns the ordered list of
  engine calls it issued, so that claims about which external requests
  happen are statable.
-/

/-- A column definition as produced by detectColumns. -/
structure SegmentColumn where
  key : String
  label : String
  type : String
  deriving Repr, DecidableEq

/-- A JavaScript value occurring in a sample result row. -/
inductive JsValue where
  | num (n : Int)
  | str (s : String)
  | dateObj (s : String)
  | bool (b : Bool)
  | null
  | undef
  deriving Repr, DecidableEq

/-- typeof value === number. -/
def isNumberValue : JsValue → Bool
  | .num _ => true
  | _ => false

/-- value instanceof Date. -/
def isDateInstance : JsValue → Bool
  | .dateObj _ => true
  | _ => false

/-- JS String(value) coercion. -/
def jsToString : JsValue → String
  | .num n => toString n
  | .str s => s
  | .dateObj s => s
  | .bool b => if b then "true" else "false"
  | .null => "null"
  | .undef => "undefined"

/-- The regex test from detectColumns: four digits, dash, two digits,
dash, two digits, anchored at the start of the string. -/
def dateRegexTest (s : String) : Bool :=
  match s.data with
  | a :: b :: c :: d :: h1 :: e :: f :: h2 :: g :: i :: _ =>
      a.isDigit && b.isDigit && c.isDigit && d.isDigit && h1 = '-' &&
      e.isDigit && f.isDigit && h2 = '-' && g.isDigit && i.isDigit
  | _ => false

/-- Substring containment on character lists, as JS String.includes. -/
def charsContain (pat : List Char) : List Char → Bool
  | [] => List.isPrefixOf pat []
  | c :: cs => List.isPrefixOf pat (c :: cs) || charsContain pat cs

/-- JS s.includes(pat). -/
def strIncludes (s pat : String) : Bool :=
  charsContain pat.data s.data

/-- JS s.toLowerCase(), character by character. -/
def strToLower (s : String) : String :=
  String.mk (s.data.map Char.toLower)

/-- The type classification of one column in detectColumns, in the code
order: typeof number first, then Date-or-date-string, then the
monetary key hint, else string. -/
def detectType (key : String) (value : JsValue) : String :=
  if isNumberValue value then "number"
  else if isDateInstance value || dateRegexTest (jsToString value) then "date"
  else if strIncludes (strToLower key) "price" || strIncludes (strToLower key) "total"
      || strIncludes (strToLower key) "amount" then "currency"
  else "string"

/-- Label derivation: capitalize the first character and replace
underscores by spaces in the rest, as in detectColumns. -/
def makeLabel (key : String) : String :=
  match key.data with
  | [] => ""
  | c :: rest => String.mk (c.toUpper :: rest.map (fun ch => if ch = '_' then ' ' else ch))

/-- detectColumns from api/server/routes/segments.js.  The argument is
the sample row customers[0]; none models the undefined or null sample
obtained when the view returned zero rows. -/
def detectColumns (sampleRow : Option (List (String × JsValue))) : List SegmentColumn :=
  match sampleRow with
  | none => []
  | some row => row.map fun kv =>
      { key := kv.1, label := makeLabel kv.1, type := detectType kv.1 kv.2 }

/-- A stored Segment document, after the ISegment document type. -/
structure SegmentRecord where
  segmentId : String
  name : String
  description : String
  originalPrompt : String
  sqlQuery : String
  viewName : String
  columns : List SegmentColumn
  createdBy : String
  createdDate : Nat
  isDeleted : Option Bool
  deletedAt : Option Nat
  lastExecutedAt : Option Nat
  lastRowCount : Option Nat
  createdAt : Nat
  deriving Repr, DecidableEq

/-- The Mongo filter used by getSegments and getSegmentById: isDeleted
is false or the field is absent. -/
def notDeletedFilter (r : SegmentRecord) : Bool :=
  r.isDeleted == some false || r.isDeleted == none

/-- Filter on segmentId, as the findOne and findOneAndUpdate key. -/
def matchesId (segmentId : String) (r : SegmentRecord) : Bool :=
  r.segmentId == segmentId

/-- getSegments from api/models/Segment.js: non-deleted records sorted
by createdAt descending. -/
def getSegments (st : List SegmentRecord) : List SegmentRecord :=
  (st.filter notDeletedFilter).mergeSort (fun a b => decide (b.createdAt ≤ a.createdAt))

/-- getSegmentById from api/models/Segment.js: first record matching
the id that is not soft-deleted. -/
def getSegmentById (st : List SegmentRecord) (segmentId : String) : Option SegmentRecord :=
  st.find? (fun r => matchesId segmentId r && notDeletedFilter r)

/-- Parameters of createSegment as supplied by the create route. -/
structure CreateSegmentParams where
  segmentId : String
  name : String
  description : String
  originalPrompt : String
  sqlQuery : String
  viewName : String
  columns : List SegmentColumn
  createdBy : String
  createdDate : Nat
  isDeleted : Bool
  lastExecutedAt : Option Nat
  lastRowCount : Option Nat
  deriving Repr, DecidableEq

/-- createSegment from api/models/Segment.js: inserts a new document
and returns it. -/
def createSegment (st : List SegmentRecord) (p : CreateSegmentParams) (nowCreatedAt : Nat) :
    SegmentRecord × List SegmentRecord :=
  let r : SegmentRecord :=
    { segmentId := p.segmentId
      name := p.name
      description := p.description
      originalPrompt := p.originalPrompt
      sqlQuery := p.sqlQuery
      viewName := p.viewName
      columns := p.columns
      createdBy := p.createdBy
      createdDate := p.createdDate
      isDeleted := some p.isDeleted
      deletedAt := none
      lastExecutedAt := p.lastExecutedAt
      lastRowCount := p.lastRowCount
      createdAt := nowCreatedAt }
  (r, st ++ [r])

/-- findOneAndUpdate keyed by segmentId alone (no deleted filter):
update the first matching document and return it. -/
def findOneAndUpdateById (st : List SegmentRecord) (segmentId : String)
    (f : SegmentRecord → SegmentRecord) : Option SegmentRecord × List SegmentRecord :=
  match st with
  | [] => (none, [])
  | r :: rs =>
    if matchesId segmentId r then (some (f r), f r :: rs)
    else
      let rest := findOneAndUpdateById rs segmentId f
      (rest.1, r :: rest.2)

/-- The updates object accepted by updateSegment; the six allowed
fields of its allowedFields list, each optionally present. -/
structure SegmentUpdates where
  name : Option String
  description : Option String
  sqlQuery : Option String
  createdDate : Option Nat
  isDeleted : Option Bool
  deletedAt : Option Nat
  deriving Repr, DecidableEq

/-- Apply a SegmentUpdates object to one document. -/
def applyUpdates (u : SegmentUpdates) (r : SegmentRecord) : SegmentRecord :=
  { r with
    name := u.name.getD r.name
    description := u.description.getD r.description
    sqlQuery := u.sqlQuery.getD r.sqlQuery
    createdDate := u.createdDate.getD r.createdDate
    isDeleted := match u.isDeleted with | some b => some b | none => r.isDeleted
    deletedAt := match u.deletedAt with | some t => some t | none => r.deletedAt }

/-- True when no allowed field is present in the updates object. -/
def hasNoUpdates (u : SegmentUpdates) : Bool :=
  u.name == none && u.description == none && u.sqlQuery == none &&
  u.createdDate == none && u.isDeleted == none && u.deletedAt == none

/-- updateSegment from api/models/Segment.js: restricted to the allowed
fields; with no updates it falls back to getSegmentById, otherwise it
is a findOneAndUpdate keyed by segmentId alone. -/
def updateSegment (st : List SegmentRecord) (segmentId : String) (u : SegmentUpdates) :
    Option SegmentRecord × List SegmentRecord :=
  if hasNoUpdates u then (getSegmentById st segmentId, st)
  else findOneAndUpdateById st segmentId (applyUpdates u)

/-- updateSegmentExecution from api/models/Segment.js: findOneAndUpdate
keyed by segmentId alone, setting lastExecutedAt and lastRowCount. -/
def updateSegmentExecution (st : List SegmentRecord) (segmentId : String)
    (rowCount : Nat) (now : Nat) : Option SegmentRecord × List SegmentRecord :=
  findOneAndUpdateById st segmentId
    (fun r => { r with lastExecutedAt := some now, lastRowCount := some rowCount })

/-- One external request issued by a route to the CRM backend. -/
inductive EngineCall where
  | generateView (segmentId description currentDate : String)
  | executeView (viewName : String)
  | refreshView (segmentId originalDescription currentDate : String)
  deriving Repr, DecidableEq

/-- Response body of the segments create backend endpoint. -/
structure GenerateViewResult where
  name : String
  description : String
  sql : String
  viewName : String
  deriving Repr, DecidableEq

/-- Response body of the execute-view backend endpoint. -/
structure ExecuteViewResult where
  customers : List (List (String × JsValue))
  count : Nat
  deriving Repr, DecidableEq

/-- Response body of the refresh backend endpoint. -/
structure RefreshViewResult where
  name : String
  description : String
  sql : String
  deriving Repr, DecidableEq

/-- HTTP outcome of the create route. -/
inductive CreateResult where
  | badRequest (error : String)
  | created (segment : SegmentRecord)
  | serverError (error : String)
  deriving Repr, DecidableEq

/-- The POST segments route: validate the description, generate the
view, execute it once, detect columns from the first row, persist. -/
def createRoute (st : List SegmentRecord) (description : String) (userId : String)
    (segmentId : String) (currentDate : String) (now : Nat)
    (genResp : Except String GenerateViewResult)
    (execResp : Except String ExecuteViewResult) :
    CreateResult × List SegmentRecord × List EngineCall :=
  if description = "" then
    (.badRequest "Deskripsi segment diperlukan", st, [])
  else
    match genResp with
    | .error msg =>
        (.serverError ("Gagal membuat segment: " ++ msg), st,
          [.generateView segmentId description currentDate])
    | .ok g =>
      match execResp with
      | .error msg =>
          (.serverError ("Gagal membuat segment: " ++ msg), st,
            [.generateView segmentId description currentDate, .executeView g.viewName])
      | .ok ex =>
        let columns := detectColumns ex.customers.head?
        let created := createSegment st
          { segmentId := segmentId
            name := g.name
            description := g.description
            originalPrompt := description
            sqlQuery := g.sql
            viewName := g.viewName
            columns := columns
            createdBy := userId
            createdDate := now
            isDeleted := false
            lastExecutedAt := some now
            lastRowCount := some ex.count } now
        (.created created.1, created.2,
          [.generateView segmentId description currentDate, .executeView g.viewName])

/-- HTTP outcome of the execute route. -/
inductive ExecuteResult where
  | notFound (error : String)
  | ok (columns : List SegmentColumn) (rows : List (List (String × JsValue)))
       (rowCount : Nat) (executedAt : Nat)
  | serverError (error : String)
  deriving Repr, DecidableEq

/-- The GET execute route: look up the non-deleted segment, execute the
view, then update the cached execution stats. -/
def executeRoute (st : List SegmentRecord) (segmentId : String) (now : Nat)
    (execResp : Except String ExecuteViewResult) :
    ExecuteResult × List SegmentRecord × List EngineCall :=
  match getSegmentById st segmentId with
  | none => (.notFound "Segment tidak ditemukan", st, [])
  | some seg =>
    if seg.isDeleted == some true then (.notFound "Segment tidak ditemukan", st, [])
    else
      match execResp with
      | .error msg =>
          (.serverError ("Gagal mengeksekusi segment: " ++ msg), st, [.executeView seg.viewName])
      | .ok ex =>
        let upd := updateSegmentExecution st seg.segmentId ex.count now
        (.ok seg.columns ex.customers ex.count now, upd.2, [.executeView seg.viewName])

/-- HTTP outcome of the refresh route. -/
inductive RefreshResult where
  | notFound (error : String)
  | ok (segment : SegmentRecord) (columns : List SegmentColumn)
       (rows : List (List (String × JsValue))) (rowCount : Nat) (executedAt : Nat)
  | serverError (error : String)
  deriving Repr, DecidableEq

/-- The POST refresh route: look up the non-deleted segment, ask the
backend to regenerate the view, commit the metadata update, then
re-execute the view and update the cached stats.  A failure after the
metadata write is reported through the same catch-all error response
as a generation failure. -/
def refreshRoute (st : List SegmentRecord) (segmentId : String) (currentDate : String)
    (now : Nat) (refreshResp : Except String RefreshViewResult)
    (execResp : Except String ExecuteViewResult) :
    RefreshResult × List SegmentRecord × List EngineCall :=
  match getSegmentById st segmentId with
  | none => (.notFound "Segment tidak ditemukan", st, [])
  | some seg =>
    if seg.isDeleted == some true then (.notFound "Segment tidak ditemukan", st, [])
    else
      match refreshResp with
      | .error msg =>
          (.serverError ("Gagal memperbarui segment: " ++ msg), st,
            [.refreshView seg.segmentId seg.originalPrompt currentDate])
      | .ok rv =>
        let upd := updateSegment st seg.segmentId
          { name := some rv.name
            description := some rv.description
            sqlQuery := some rv.sql
            createdDate := some now
            isDeleted := none
            deletedAt := none }
        match execResp with
        | .error msg =>
            (.serverError ("Gagal memperbarui segment: " ++ msg), upd.2,
              [.refreshView seg.segmentId seg.originalPrompt currentDate,
               .executeView seg.viewName])
        | .ok ex =>
          let upd2 := updateSegmentExecution upd.2 seg.segmentId ex.count now
          match getSegmentById upd2.2 seg.segmentId with
          | none =>
              (.serverError "Gagal memperbarui segment: Cannot read properties of null",
                upd2.2,
                [.refreshView seg.segmentId seg.originalPrompt currentDate,
                 .executeView seg.viewName])
          | some updatedSegment =>
              (.ok updatedSegment updatedSegment.columns ex.customers ex.count now, upd2.2,
                [.refreshView seg.segmentId seg.originalPrompt currentDate,
                 .executeView seg.viewName])

/-- HTTP outcome of the delete route. -/
inductive DeleteResult where
  | notFound (error : String)
  | success
  | serverError (error : String)
  deriving Repr, DecidableEq

/-- The DELETE route: look up via the non-deleted filter, then soft
delete by setting isDeleted and deletedAt; no backend call is issued
and the view is left in place. -/
def deleteRoute (st : List SegmentRecord) (segmentId : String) (now : Nat) :
    DeleteResult × List SegmentRecord × List EngineCall :=
  match getSegmentById st segmentId with
  | none => (.notFound "Segment tidak ditemukan", st, [])
  | some _ =>
    let upd := updateSegment st segmentId
      { name := none
        description := none
        sqlQuery := none
        createdDate := none
        isDeleted := some true
        deletedAt := some now }
    (.success, upd.2, [])

/-! Helper lemmas about the store model. -/

/-- A record returned by getSegmentById satisfies the lookup filter:
it carries the requested id, is not marked deleted, and is in the store. -/
theorem getSegmentById_props {st : List SegmentRecord} {segmentId : String}
    {seg : SegmentRecord} (h : getSegmentById st segmentId = some seg) :
    (seg.isDeleted == some true) = false ∧ seg.segmentId = segmentId ∧ seg ∈ st := by
  have hp := List.find?_some h
  have hm := List.mem_of_find?_eq_some h
  simp only [matchesId, notDeletedFilter, Bool.and_eq_true, Bool.or_eq_true, beq_iff_eq] at hp
  refine ⟨?_, hp.1, hm⟩
  rcases hp.2 with h1 | h1 <;> simp [h1]

/-- Membership in the sorted, filtered listing implies raw membership. -/
theorem mem_of_mem_getSegments {r : SegmentRecord} {st : List SegmentRecord}
    (h : r ∈ getSegments st) : r ∈ st := by
  unfold getSegments at h
  exact List.mem_of_mem_filter (List.mem_mergeSort.mp h)

/-! Claim theorems: schema inference (C2) and input validation (C9). -/

/-- C2 counterexample: on the row from the claim, detectColumns
classifies totalspend as number, not currency — the typeof-number
branch runs before the monetary-hint branch, so the currency hint does
not take priority over numeric detection. -/
theorem detect_columns_currency_priority_counterexample :
    (detectColumns (some [("custname", JsValue.str "Ana"), ("totalspend", JsValue.num 150000),
        ("joindate", JsValue.str "2024-01-05")])).map SegmentColumn.type
      = ["string", "number", "date"]
    ∧ (detectColumns (some [("custname", JsValue.str "Ana"), ("totalspend", JsValue.num 150000),
        ("joindate", JsValue.str "2024-01-05")])).map SegmentColumn.type
      ≠ ["string", "currency", "date"] := by
  constructor <;> decide

/-- C2 amended: numeric detection takes priority over the monetary key
hint — a column whose value is a JS number is always classified as
number, whatever its key; the monetary hint only applies to values
that are neither numbers nor date-like.  On the claimed sample row the
inferred types are therefore string, number, date. -/
theorem detect_type_number_overrides_currency_hint :
    (∀ (key : String) (n : Int), detectType key (JsValue.num n) = "number")
    ∧ (detectColumns (some [("custname", JsValue.str "Ana"), ("totalspend", JsValue.num 150000),
        ("joindate", JsValue.str "2024-01-05")])).map SegmentColumn.type
      = ["string", "number", "date"] := by
  exact ⟨fun key n => rfl, by decide⟩

/-- C9 counterexample: a whitespace-only description is truthy in JS,
so the falsy check lets it through — the create route calls the
backend (generateView appears in the call trace) and persists a
segment instead of failing locally with an invalid-input error. -/
theorem create_whitespace_description_counterexample :
    createRoute [] " " "user1" "seg-1" "2025-12-27" 100
        (Except.ok { name := "Segmen", description := "Deskripsi",
                     sql := "SELECT 1", viewName := "vw_seg" })
        (Except.ok { customers := [[("custid", JsValue.num 1)]], count := 1 })
      = (CreateResult.created
          { segmentId := "seg-1", name := "Segmen", description := "Deskripsi",
            originalPrompt := " ", sqlQuery := "SELECT 1", viewName := "vw_seg",
            columns := [{ key := "custid", label := "Custid", type := "number" }],
            createdBy := "user1", createdDate := 100, isDeleted := some false,
            deletedAt := none, lastExecutedAt := some 100, lastRowCount := some 1,
            createdAt := 100 },
         [{ segmentId := "seg-1", name := "Segmen", description := "Deskripsi",
            originalPrompt := " ", sqlQuery := "SELECT 1", viewName := "vw_seg",
            columns := [{ key := "custid", label := "Custid", type := "number" }],
            createdBy := "user1", createdDate := 100, isDeleted := some false,
            deletedAt := none, lastExecutedAt := some 100, lastRowCount := some 1,
            createdAt := 100 }],
         [EngineCall.generateView "seg-1" " " "2025-12-27",
          EngineCall.executeView "vw_seg"]) := by
  decide

/-- C9 amended: only a falsy (empty or missing) description is rejected
locally: the create route then returns the 400 invalid-input response,
issues no engine call and leaves the store unchanged.  A whitespace-only
description is not trimmed and proceeds to the engine. -/
theorem create_empty_description_rejected_locally
    (st : List SegmentRecord) (userId segmentId currentDate : String) (now : Nat)
    (genResp : Except String GenerateViewResult)
    (execResp : Except String ExecuteViewResult) :
    createRoute st "" userId segmentId currentDate now genResp execResp
      = (CreateResult.badRequest "Deskripsi segment diperlukan", st, []) := by
  rfl

/-! Claim theorems: creation protocol (C1, C3). -/

/-- C1 counterexample: when the first execution of the view returns
zero rows, the create route does not fail — it persists a Segment
record whose columns list is empty and returns it with a 201. -/
theorem create_empty_rows_counterexample :
    createRoute [] "pelanggan aktif" "user1" "seg-1" "2025-12-27" 100
        (Except.ok { name := "Segmen", description := "Deskripsi",
                     sql := "SELECT 1", viewName := "vw_seg" })
        (Except.ok { customers := [], count := 0 })
      = (CreateResult.created
          { segmentId := "seg-1", name := "Segmen", description := "Deskripsi",
            originalPrompt := "pelanggan aktif", sqlQuery := "SELECT 1",
            viewName := "vw_seg", columns := [], createdBy := "user1",
            createdDate := 100, isDeleted := some false, deletedAt := none,
            lastExecutedAt := some 100, lastRowCount := some 0, createdAt := 100 },
         [{ segmentId := "seg-1", name := "Segmen", description := "Deskripsi",
            originalPrompt := "pelanggan aktif", sqlQuery := "SELECT 1",
            viewName := "vw_seg", columns := [], createdBy := "user1",
            createdDate := 100, isDeleted := some false, deletedAt := none,
            lastExecutedAt := some 100, lastRowCount := some 0, createdAt := 100 }],
         [EngineCall.generateView "seg-1" "pelanggan aktif" "2025-12-27",
          EngineCall.executeView "vw_seg"]) := by
  decide

/-- C1 amended: a Create whose first execution yields zero rows does
not raise a schema-inference error; detectColumns of the missing
sample row yields the empty list and the route persists a Segment
record with an empty columns list, so callers can observe such a
record. -/
theorem create_empty_rows_persists_empty_columns
    (st : List SegmentRecord) (description userId segmentId currentDate : String)
    (now c : Nat) (g : GenerateViewResult) (hdesc : description ≠ "") :
    createRoute st description userId segmentId currentDate now (Except.ok g)
        (Except.ok { customers := [], count := c })
      = (CreateResult.created
          { segmentId := segmentId, name := g.name, description := g.description,
            originalPrompt := description, sqlQuery := g.sql, viewName := g.viewName,
            columns := [], createdBy := userId, createdDate := now,
            isDeleted := some false, deletedAt := none, lastExecutedAt := some now,
            lastRowCount := some c, createdAt := now },
         st ++
          [{ segmentId := segmentId, name := g.name, description := g.description,
             originalPrompt := description, sqlQuery := g.sql, viewName := g.viewName,
             columns := [], createdBy := userId, createdDate := now,
             isDeleted := some false, deletedAt := none, lastExecutedAt := some now,
             lastRowCount := some c, createdAt := now }],
         [EngineCall.generateView segmentId description currentDate,
          EngineCall.executeView g.viewName]) := by
  simp [createRoute, hdesc, createSegment, detectColumns]

/-- Witness for the C1 amended theorem at concrete inputs. -/
theorem create_empty_rows_persists_empty_columns_witness :
    createRoute [] "pelanggan aktif" "user1" "seg-1" "2025-12-27" 100
        (Except.ok { name := "Segmen", description := "Deskripsi",
                     sql := "SELECT 1", viewName := "vw_seg" })
        (Except.ok { customers := [], count := 0 })
      = (CreateResult.created
          { segmentId := "seg-1", name := "Segmen", description := "Deskripsi",
            originalPrompt := "pelanggan aktif", sqlQuery := "SELECT 1",
            viewName := "vw_seg", columns := [], createdBy := "user1",
            createdDate := 100, isDeleted := some false, deletedAt := none,
            lastExecutedAt := some 100, lastRowCount := some 0, createdAt := 100 },
         [] ++
          [{ segmentId := "seg-1", name := "Segmen", description := "Deskripsi",
             originalPrompt := "pelanggan aktif", sqlQuery := "SELECT 1",
             viewName := "vw_seg", columns := [], createdBy := "user1",
             createdDate := 100, isDeleted := some false, deletedAt := none,
             lastExecutedAt := some 100, lastRowCount := some 0, createdAt := 100 }],
         [EngineCall.generateView "seg-1" "pelanggan aktif" "2025-12-27",
          EngineCall.executeView "vw_seg"]) :=
  create_empty_rows_persists_empty_columns [] "pelanggan aktif" "user1" "seg-1"
    "2025-12-27" 100 0
    { name := "Segmen", description := "Deskripsi", sql := "SELECT 1", viewName := "vw_seg" }
    (by decide)

/-- C3: if the view-generation call or the view-execution call of the
create route fails, the store is unchanged, and consequently a List
issued afterwards contains no record carrying the allocated (fresh)
segmentId. -/
theorem create_failure_not_persisted
    (st : List SegmentRecord) (description userId segmentId currentDate : String)
    (now : Nat) (genResp : Except String GenerateViewResult)
    (execResp : Except String ExecuteViewResult)
    (hfresh : ∀ r ∈ st, r.segmentId ≠ segmentId)
    (hfail : (∃ e, genResp = Except.error e) ∨ (∃ e, execResp = Except.error e)) :
    (createRoute st description userId segmentId currentDate now genResp execResp).2.1 = st
    ∧ ∀ r ∈ getSegments
        (createRoute st description userId segmentId currentDate now genResp execResp).2.1,
        r.segmentId ≠ segmentId := by
  have hst : (createRoute st description userId segmentId currentDate now genResp execResp).2.1
      = st := by
    by_cases hd : description = ""
    · simp [createRoute, hd]
    · rcases hfail with ⟨e, he⟩ | ⟨e, he⟩
      · simp [createRoute, hd, he]
      · cases genResp with
        | error msg => simp [createRoute, hd]
        | ok g => simp [createRoute, hd, he]
  refine ⟨hst, ?_⟩
  rw [hst]
  intro r hr
  exact hfresh r (mem_of_mem_getSegments hr)

/-- Witness for C3 at concrete inputs: a failing generation call on an
empty store. -/
theorem create_failure_not_persisted_witness :
    (createRoute [] "pelanggan aktif" "user1" "seg-1" "2025-12-27" 100
        (Except.error "ECONNREFUSED")
        (Except.ok { customers := [], count := 0 })).2.1 = []
    ∧ ∀ r ∈ getSegments
        (createRoute [] "pelanggan aktif" "user1" "seg-1" "2025-12-27" 100
          (Except.error "ECONNREFUSED")
          (Except.ok { customers := [], count := 0 })).2.1,
        r.segmentId ≠ "seg-1" :=
  create_failure_not_persisted [] "pelanggan aktif" "user1" "seg-1" "2025-12-27" 100
    (Except.error "ECONNREFUSED") (Except.ok { customers := [], count := 0 })
    (by simp) (Or.inl ⟨"ECONNREFUSED", rfl⟩)

/-! Claim theorems: execution cache (C5, C10). -/

/-- A concrete non-deleted segment record used by witnesses. -/
def segSample : SegmentRecord :=
  { segmentId := "seg-1", name := "Segmen Aktif", description := "pelanggan aktif",
    originalPrompt := "pelanggan aktif", sqlQuery := "SELECT 1", viewName := "vw_seg_1",
    columns := [{ key := "custid", label := "Custid", type := "number" }],
    createdBy := "user1", createdDate := 1, isDeleted := some false, deletedAt := none,
    lastExecutedAt := some 1, lastRowCount := some 1, createdAt := 1 }

/-- C5: when the execute route finds a (non-deleted) segment and the
external view execution fails, the store is returned unchanged — in
particular lastExecutedAt and lastRowCount of every record keep their
previous values — and the error is surfaced as the 500 response. -/
theorem execute_failure_leaves_store_unchanged
    (st : List SegmentRecord) (segmentId : String) (now : Nat) (e : String)
    (seg : SegmentRecord) (hfound : getSegmentById st segmentId = some seg) :
    executeRoute st segmentId now (Except.error e)
      = (ExecuteResult.serverError ("Gagal mengeksekusi segment: " ++ e), st,
         [EngineCall.executeView seg.viewName]) := by
  have hd := (getSegmentById_props hfound).1
  unfold executeRoute
  rw [hfound]
  simp [hd]

/-- Witness for C5 at a concrete store. -/
theorem execute_failure_leaves_store_unchanged_witness :
    executeRoute [segSample] "seg-1" 50 (Except.error "ECONNREFUSED")
      = (ExecuteResult.serverError ("Gagal mengeksekusi segment: " ++ "ECONNREFUSED"),
         [segSample], [EngineCall.executeView segSample.viewName]) :=
  execute_failure_leaves_store_unchanged [segSample] "seg-1" 50 "ECONNREFUSED" segSample
    (by decide)

/-- findOneAndUpdateById updates the first record carrying the id,
regardless of its deletion state, when no earlier record carries it. -/
theorem findOneAndUpdateById_append
    (pre post : List SegmentRecord) (r : SegmentRecord) (id : String)
    (f : SegmentRecord → SegmentRecord) (hid : r.segmentId = id)
    (hpre : ∀ b ∈ pre, b.segmentId ≠ id) :
    findOneAndUpdateById (pre ++ r :: post) id f = (some (f r), pre ++ f r :: post) := by
  induction pre with
  | nil => simp [findOneAndUpdateById, matchesId, hid]
  | cons b bs ih =>
    have hb : b.segmentId ≠ id := hpre b (List.mem_cons_self b bs)
    have ih2 := ih (fun x hx => hpre x (List.mem_cons_of_mem b hx))
    simp [findOneAndUpdateById, matchesId, hb, ih2]

/-- C10: the cache update used by Execute and Refresh matches the
record by segmentId alone, without the non-deleted filter used by the
lookups: even a record with isDeleted = true has its lastExecutedAt
and lastRowCount overwritten by updateSegmentExecution, so a soft
delete landing between the lookup of an Execute and its cache write
does not prevent mutation of the deleted record. -/
theorem update_execution_ignores_deleted_filter
    (pre post : List SegmentRecord) (r : SegmentRecord) (rowCount now : Nat)
    (hdel : r.isDeleted = some true)
    (hpre : ∀ b ∈ pre, b.segmentId ≠ r.segmentId) :
    updateSegmentExecution (pre ++ r :: post) r.segmentId rowCount now
      = (some { r with lastExecutedAt := some now, lastRowCount := some rowCount },
         pre ++ { r with lastExecutedAt := some now, lastRowCount := some rowCount } :: post) := by
  unfold updateSegmentExecution
  exact findOneAndUpdateById_append pre post r r.segmentId _ rfl hpre

/-- The sample record after a soft delete at tick 10. -/
def segSampleDeleted : SegmentRecord :=
  { segSample with isDeleted := some true, deletedAt := some 10 }

/-- Witness for C10: a soft-deleted record is still mutated. -/
theorem update_execution_ignores_deleted_filter_witness :
    updateSegmentExecution [segSampleDeleted] segSampleDeleted.segmentId 5 50
      = (some { segSampleDeleted with lastExecutedAt := some 50, lastRowCount := some 5 },
         [{ segSampleDeleted with lastExecutedAt := some 50, lastRowCount := some 5 }]) :=
  update_execution_ignores_deleted_filter [] [] segSampleDeleted 5 50 rfl (by simp)

/-! Claim theorems: refresh frame (C4). -/

/-- The fields of a record that Refresh never touches: everything
except name, description, sqlQuery, createdDate and the two cached
execution stats. -/
def refreshFrame (a b : SegmentRecord) : Prop :=
  a.segmentId = b.segmentId ∧ a.viewName = b.viewName ∧ a.columns = b.columns ∧
  a.originalPrompt = b.originalPrompt ∧ a.createdBy = b.createdBy ∧
  a.isDeleted = b.isDeleted ∧ a.deletedAt = b.deletedAt ∧ a.createdAt = b.createdAt

theorem refreshFrame_refl (a : SegmentRecord) : refreshFrame a a :=
  ⟨rfl, rfl, rfl, rfl, rfl, rfl, rfl, rfl⟩

theorem refreshFrame_trans {a b c : SegmentRecord}
    (h1 : refreshFrame a b) (h2 : refreshFrame b c) : refreshFrame a c := by
  obtain ⟨x1, x2, x3, x4, x5, x6, x7, x8⟩ := h1
  obtain ⟨y1, y2, y3, y4, y5, y6, y7, y8⟩ := h2
  exact ⟨x1.trans y1, x2.trans y2, x3.trans y3, x4.trans y4,
         x5.trans y5, x6.trans y6, x7.trans y7, x8.trans y8⟩

theorem forall₂_refreshFrame_refl (l : List SegmentRecord) :
    List.Forall₂ refreshFrame l l := by
  induction l with
  | nil => exact List.Forall₂.nil
  | cons a as ih => exact List.Forall₂.cons (refreshFrame_refl a) ih

theorem forall₂_refreshFrame_trans {l1 l2 l3 : List SegmentRecord}
    (h1 : List.Forall₂ refreshFrame l1 l2) (h2 : List.Forall₂ refreshFrame l2 l3) :
    List.Forall₂ refreshFrame l1 l3 := by
  induction h1 generalizing l3 with
  | nil => cases h2; exact List.Forall₂.nil
  | cons hab htail ih =>
    cases h2 with
    | cons hbc h2tail => exact List.Forall₂.cons (refreshFrame_trans hab hbc) (ih h2tail)

/-- A first-match update whose per-record function preserves the frame
preserves the frame pointwise across the store. -/
theorem findOneAndUpdateById_forall₂ (st : List SegmentRecord) (id : String)
    (f : SegmentRecord → SegmentRecord) (hf : ∀ r, refreshFrame r (f r)) :
    List.Forall₂ refreshFrame st (findOneAndUpdateById st id f).2 := by
  induction st with
  | nil => exact List.Forall₂.nil
  | cons r rs ih =>
    by_cases h : matchesId id r
    · simp only [findOneAndUpdateById, if_pos h]
      exact List.Forall₂.cons (hf r) (forall₂_refreshFrame_refl rs)
    · simp only [findOneAndUpdateById, if_neg h]
      exact List.Forall₂.cons (refreshFrame_refl r) ih

/-- The metadata update issued by the refresh route preserves the
frame of each record. -/
theorem applyUpdates_refresh_frame (rv : RefreshViewResult) (now : Nat) (r : SegmentRecord) :
    refreshFrame r (applyUpdates
      { name := some rv.name, description := some rv.description,
        sqlQuery := some rv.sql, createdDate := some now,
        isDeleted := none, deletedAt := none } r) := by
  simp [applyUpdates, refreshFrame]

/-- One refresh call leaves the frame fields unchanged,
whatever its outcome. -/
theorem refreshRoute_store_forall₂ (st : List SegmentRecord) (segmentId currentDate : String)
    (now : Nat) (refreshResp : Except String RefreshViewResult)
    (execResp : Except String ExecuteViewResult) :
    List.Forall₂ refreshFrame st
      (refreshRoute st segmentId currentDate now refreshResp execResp).2.1 := by
  unfold refreshRoute
  cases hfind : getSegmentById st segmentId with
  | none => exact forall₂_refreshFrame_refl st
  | some seg =>
    simp only
    by_cases hdel : (seg.isDeleted == some true) = true
    · simp only [hdel, if_pos]
      exact forall₂_refreshFrame_refl st
    · rw [if_neg (by simpa using hdel)]
      cases refreshResp with
      | error msg => exact forall₂_refreshFrame_refl st
      | ok rv =>
        simp only
        have h1 : List.Forall₂ refreshFrame st
            (updateSegment st seg.segmentId
              { name := some rv.name, description := some rv.description,
                sqlQuery := some rv.sql, createdDate := some now,
                isDeleted := none, deletedAt := none }).2 := by
          unfold updateSegment
          rw [if_neg (by simp [hasNoUpdates])]
          exact findOneAndUpdateById_forall₂ st seg.segmentId _
            (applyUpdates_refresh_frame rv now)
        cases execResp with
        | error msg => exact h1
        | ok ex =>
          simp only
          have h2 := findOneAndUpdateById_forall₂
            (updateSegment st seg.segmentId
              { name := some rv.name, description := some rv.description,
                sqlQuery := some rv.sql, createdDate := some now,
                isDeleted := none, deletedAt := none }).2 seg.segmentId
            (fun r => { r with lastExecutedAt := some now, lastRowCount := some ex.count })
            (fun r => by simp [refreshFrame])
          have h12 := forall₂_refreshFrame_trans h1 h2
          cases hfind2 : getSegmentById
              (updateSegmentExecution
                (updateSegment st seg.segmentId
                  { name := some rv.name, description := some rv.description,
                    sqlQuery := some rv.sql, createdDate := some now,
                    isDeleted := none, deletedAt := none }).2 seg.segmentId ex.count now).2
              seg.segmentId with
          | none => exact h12
          | some upd => exact h12

/-- The inputs of one refresh request: target id, the two clock reads
and the two backend responses. -/
structure RefreshCall where
  segmentId : String
  currentDate : String
  now : Nat
  refreshResp : Except String RefreshViewResult
  execResp : Except String ExecuteViewResult

/-- The store after a sequence of refresh requests. -/
def applyRefreshCalls (st : List SegmentRecord) : List RefreshCall → List SegmentRecord
  | [] => st
  | c :: cs =>
      applyRefreshCalls
        (refreshRoute st c.segmentId c.currentDate c.now c.refreshResp c.execResp).2.1 cs

/-- C4: across any sequence of refresh calls (N greater or equal 0,
any targets, any outcomes), every stored record keeps its segmentId,
viewName, columns, originalPrompt, createdBy, isDeleted, deletedAt and
createdAt — refresh can modify only name, description, sqlQuery,
createdDate and the cached execution stats.  In particular the
segmentId, viewName and columns returned by Create are unchanged by
any subsequent refresh. -/
theorem refresh_preserves_identity_viewname_columns
    (st : List SegmentRecord) (calls : List RefreshCall) :
    List.Forall₂ refreshFrame st (applyRefreshCalls st calls) := by
  induction calls generalizing st with
  | nil => exact forall₂_refreshFrame_refl st
  | cons c cs ih =>
    exact forall₂_refreshFrame_trans
      (refreshRoute_store_forall₂ st c.segmentId c.currentDate c.now c.refreshResp c.execResp)
      (ih _)

/-! Claim theorems: refresh partial success (C6). -/

/-- The refresh-view response used in the C6 scenarios. -/
def rvSample : RefreshViewResult :=
  { name := "Segmen Aktif v2", description := "pelanggan aktif (2026)", sql := "SELECT 2" }

/-- C6 counterexample: with a concrete store, when the regeneration
succeeds, the metadata update is committed and then the execution step
fails, the refresh route returns exactly the same serverError value as
a run in which the generation itself failed — the partial success is
not distinguished in the return value — even though the committed
metadata (new sqlQuery, name, description) is visible in the store. -/
theorem refresh_commit_then_failure_counterexample :
    (refreshRoute [segSample] "seg-1" "2026-01-01" 7
        (Except.ok rvSample) (Except.error "boom")).1
      = (refreshRoute [segSample] "seg-1" "2026-01-01" 7
          (Except.error "boom") (Except.error "boom")).1
    ∧ (refreshRoute [segSample] "seg-1" "2026-01-01" 7
        (Except.ok rvSample) (Except.error "boom")).1
      = RefreshResult.serverError "Gagal memperbarui segment: boom"
    ∧ (refreshRoute [segSample] "seg-1" "2026-01-01" 7
        (Except.ok rvSample) (Except.error "boom")).2.1
      = [{ segSample with
            name := "Segmen Aktif v2",
            description := "pelanggan aktif (2026)",
            sqlQuery := "SELECT 2",
            createdDate := 7 }] := by
  refine ⟨by decide, by decide, by decide⟩

/-- C6 amended: when the view regeneration succeeds, the metadata
update is committed, and the subsequent execution fails, the refresh
route answers with the same serverError shape (and message prefix) as
a full generation failure; the return value does not mark the partial
success, while the store keeps the committed metadata update. -/
theorem refresh_execution_failure_same_error_shape
    (st : List SegmentRecord) (segmentId currentDate : String) (now : Nat)
    (rv : RefreshViewResult) (e : String) (seg : SegmentRecord)
    (hfound : getSegmentById st segmentId = some seg) :
    refreshRoute st segmentId currentDate now (Except.ok rv) (Except.error e)
      = (RefreshResult.serverError ("Gagal memperbarui segment: " ++ e),
         (updateSegment st seg.segmentId
           { name := some rv.name, description := some rv.description,
             sqlQuery := some rv.sql, createdDate := some now,
             isDeleted := none, deletedAt := none }).2,
         [EngineCall.refreshView seg.segmentId seg.originalPrompt currentDate,
          EngineCall.executeView seg.viewName])
    ∧ refreshRoute st segmentId currentDate now (Except.error e) (Except.error e)
      = (RefreshResult.serverError ("Gagal memperbarui segment: " ++ e), st,
         [EngineCall.refreshView seg.segmentId seg.originalPrompt currentDate]) := by
  have hd := (getSegmentById_props hfound).1
  constructor
  · unfold refreshRoute
    rw [hfound]
    simp [hd]
  · unfold refreshRoute
    rw [hfound]
    simp [hd]

/-- Witness for the C6 amended theorem at a concrete store. -/
theorem refresh_execution_failure_same_error_shape_witness :
    refreshRoute [segSample] "seg-1" "2026-01-01" 7 (Except.ok rvSample) (Except.error "boom")
      = (RefreshResult.serverError ("Gagal memperbarui segment: " ++ "boom"),
         (updateSegment [segSample] segSample.segmentId
           { name := some rvSample.name, description := some rvSample.description,
             sqlQuery := some rvSample.sql, createdDate := some 7,
             isDeleted := none, deletedAt := none }).2,
         [EngineCall.refreshView segSample.segmentId segSample.originalPrompt "2026-01-01",
          EngineCall.executeView segSample.viewName])
    ∧ refreshRoute [segSample] "seg-1" "2026-01-01" 7 (Except.error "boom") (Except.error "boom")
      = (RefreshResult.serverError ("Gagal memperbarui segment: " ++ "boom"), [segSample],
         [EngineCall.refreshView segSample.segmentId segSample.originalPrompt "2026-01-01"]) :=
  refresh_execution_failure_same_error_shape [segSample] "seg-1" "2026-01-01" 7
    rvSample "boom" segSample (by decide)

/-! Claim theorems: soft delete (C7, C8). -/

/-- A successful lookup splits the store at the found record. -/
theorem getSegmentById_split {st : List SegmentRecord} {segmentId : String}
    {seg : SegmentRecord} (h : getSegmentById st segmentId = some seg) :
    ∃ pre post, st = pre ++ seg :: post := by
  induction st with
  | nil => simp [getSegmentById] at h
  | cons r rs ih =>
    unfold getSegmentById at h
    by_cases hp : (matchesId segmentId r && notDeletedFilter r) = true
    · rw [List.find?_cons_of_pos
          (p := fun x => matchesId segmentId x && notDeletedFilter x) rs hp] at h
      obtain rfl : r = seg := by injection h
      exact ⟨[], rs, rfl⟩
    · rw [List.find?_cons_of_neg
          (p := fun x => matchesId segmentId x && notDeletedFilter x) rs
          (by simpa using hp)] at h
      obtain ⟨pre, post, hsplit⟩ := ih h
      exact ⟨r :: pre, post, by rw [hsplit]; rfl⟩

/-- After the soft-delete write, a lookup of the id finds nothing: the
records around the deleted one carry other ids, and the deleted one
fails the non-deleted filter. -/
theorem getSegmentById_after_delete
    (pre post : List SegmentRecord) (seg : SegmentRecord) (segmentId : String) (now : Nat)
    (hpre : ∀ b ∈ pre, b.segmentId ≠ segmentId)
    (hpost : ∀ b ∈ post, b.segmentId ≠ segmentId) :
    getSegmentById
        (pre ++ { seg with isDeleted := some true, deletedAt := some now } :: post)
        segmentId
      = none := by
  unfold getSegmentById
  rw [List.find?_eq_none]
  intro a ha
  simp only [List.mem_append, List.mem_cons] at ha
  rcases ha with ha | ha | ha
  · simp [matchesId, hpre a ha]
  · subst ha
    simp [matchesId, notDeletedFilter]
  · simp [matchesId, hpost a ha]

/-- Core description of a successful delete-route call on a store with
unique segmentIds: the outcome is success with an empty engine-call
trace, and the store is the same list with the found record flagged
isDeleted and deletedAt. -/
theorem deleteRoute_core
    (st : List SegmentRecord) (segmentId : String) (now : Nat) (seg : SegmentRecord)
    (hU : st.Pairwise (fun a b => a.segmentId ≠ b.segmentId))
    (hfound : getSegmentById st segmentId = some seg) :
    ∃ pre post,
      st = pre ++ seg :: post
      ∧ deleteRoute st segmentId now
          = (DeleteResult.success,
             pre ++ { seg with isDeleted := some true, deletedAt := some now } :: post, [])
      ∧ (∀ b ∈ pre, b.segmentId ≠ segmentId)
      ∧ (∀ b ∈ post, b.segmentId ≠ segmentId) := by
  have hsegid : seg.segmentId = segmentId := (getSegmentById_props hfound).2.1
  obtain ⟨pre, post, hsplit⟩ := getSegmentById_split hfound
  subst hsplit
  rw [List.pairwise_append] at hU
  have hpre : ∀ b ∈ pre, b.segmentId ≠ segmentId := by
    intro b hb
    have hne := hU.2.2 b hb seg (List.mem_cons_self seg post)
    rw [hsegid] at hne
    exact hne
  have hpost : ∀ b ∈ post, b.segmentId ≠ segmentId := by
    intro b hb hbid
    have h2 := hU.2.1
    rw [List.pairwise_cons] at h2
    have hne := h2.1 b hb
    rw [hsegid] at hne
    exact hne hbid.symm
  have hupd := findOneAndUpdateById_append pre post seg segmentId
    (applyUpdates
      { name := none, description := none, sqlQuery := none, createdDate := none,
        isDeleted := some true, deletedAt := some now }) hsegid hpre
  refine ⟨pre, post, rfl, ?_, hpre, hpost⟩
  unfold deleteRoute
  rw [hfound]
  unfold updateSegment
  rw [if_neg (by simp [hasNoUpdates])]
  rw [hupd]
  simp [applyUpdates]

/-- C7 counterexample: on a one-record store, the first SoftDelete
returns success, and the second SoftDelete of the same id returns
not-found rather than success, because the lookup used by the delete
route excludes soft-deleted records. -/
theorem soft_delete_twice_counterexample :
    (deleteRoute [segSample] "seg-1" 10).1 = DeleteResult.success
    ∧ (deleteRoute (deleteRoute [segSample] "seg-1" 10).2.1 "seg-1" 20).1
        = DeleteResult.notFound "Segment tidak ditemukan"
    ∧ (deleteRoute (deleteRoute [segSample] "seg-1" 10).2.1 "seg-1" 20).1
        ≠ DeleteResult.success := by
  refine ⟨by decide, by decide, by decide⟩

/-- C7 amended: invoking SoftDelete twice is harmless — the second
invocation changes nothing in the store — but it reports not-found,
not success: the lookup guarding the route uses the non-deleted
filter, so the already-deleted record is invisible to it. -/
theorem soft_delete_second_call_not_found
    (st : List SegmentRecord) (segmentId : String) (now1 now2 : Nat) (seg : SegmentRecord)
    (hU : st.Pairwise (fun a b => a.segmentId ≠ b.segmentId))
    (hfound : getSegmentById st segmentId = some seg) :
    (deleteRoute st segmentId now1).1 = DeleteResult.success
    ∧ deleteRoute (deleteRoute st segmentId now1).2.1 segmentId now2
        = (DeleteResult.notFound "Segment tidak ditemukan",
           (deleteRoute st segmentId now1).2.1, []) := by
  obtain ⟨pre, post, hsplit, hroute, hpre, hpost⟩ :=
    deleteRoute_core st segmentId now1 seg hU hfound
  have hnone := getSegmentById_after_delete pre post seg segmentId now1 hpre hpost
  constructor
  · rw [hroute]
  · rw [hroute]
    simp only
    unfold deleteRoute
    rw [hnone]

/-- Witness for the C7 amended theorem at a concrete store. -/
theorem soft_delete_second_call_not_found_witness :
    (deleteRoute [segSample] "seg-1" 10).1 = DeleteResult.success
    ∧ deleteRoute (deleteRoute [segSample] "seg-1" 10).2.1 "seg-1" 20
        = (DeleteResult.notFound "Segment tidak ditemukan",
           (deleteRoute [segSample] "seg-1" 10).2.1, []) :=
  soft_delete_second_call_not_found [segSample] "seg-1" 10 20 segSample
    (by simp) (by decide)

/-- C8: after a successful SoftDelete, Get returns not-found and List
excludes the segmentId, yet the record itself is still in the raw
store, flagged isDeleted with a deletedAt timestamp and with every
other field (viewName included) intact; the route issues no engine
call, so the external view is not destroyed. -/
theorem soft_delete_visibility
    (st : List SegmentRecord) (segmentId : String) (now : Nat) (seg : SegmentRecord)
    (hU : st.Pairwise (fun a b => a.segmentId ≠ b.segmentId))
    (hfound : getSegmentById st segmentId = some seg) :
    (deleteRoute st segmentId now).1 = DeleteResult.success
    ∧ getSegmentById (deleteRoute st segmentId now).2.1 segmentId = none
    ∧ (∀ r ∈ getSegments (deleteRoute st segmentId now).2.1, r.segmentId ≠ segmentId)
    ∧ { seg with isDeleted := some true, deletedAt := some now }
        ∈ (deleteRoute st segmentId now).2.1
    ∧ (deleteRoute st segmentId now).2.2 = [] := by
  obtain ⟨pre, post, hsplit, hroute, hpre, hpost⟩ :=
    deleteRoute_core st segmentId now seg hU hfound
  have hnone := getSegmentById_after_delete pre post seg segmentId now hpre hpost
  refine ⟨by rw [hroute], by rw [hroute]; exact hnone, ?_, ?_, by rw [hroute]⟩
  · intro r hr
    rw [hroute] at hr
    simp only at hr
    have hmem := List.mem_mergeSort.mp hr
    have hfil := List.mem_filter.mp hmem
    have hin := hfil.1
    simp only [List.mem_append, List.mem_cons] at hin
    rcases hin with hin | hin | hin
    · exact hpre r hin
    · exfalso
      have := hfil.2
      rw [hin] at this
      simp [notDeletedFilter] at this
    · exact hpost r hin
  · rw [hroute]
    simp only
    exact List.mem_append_right pre (List.mem_cons_self _ post)

/-- Witness for C8 at a concrete store. -/
theorem soft_delete_visibility_witness :
    (deleteRoute [segSample] "seg-1" 10).1 = DeleteResult.success
    ∧ getSegmentById (deleteRoute [segSample] "seg-1" 10).2.1 "seg-1" = none
    ∧ (∀ r ∈ getSegments (deleteRoute [segSample] "seg-1" 10).2.1, r.segmentId ≠ "seg-1")
    ∧ { segSample with isDeleted := some true, deletedAt := some 10 }
        ∈ (deleteRoute [segSample] "seg-1" 10).2.1
    ∧ (deleteRoute [segSample] "seg-1" 10).2.2 = [] :=
  soft_delete_visibility [segSample] "seg-1" 10 segSample (by simp) (by decide)
